import Mathlib

/-!
Verification of the Local Hybrid Reranker (LocalReranker.node.js, v2.1).

The file shallowly embeds the `execute` method of the node class and the
helper closures it defines (`cos`, `tok`, the global document-frequency
pass, the batch loop, the BM25 normalizers and the score fusion), and then
proves or refutes the frozen claims about it.

Modelling conventions:
  - JavaScript floating-point numbers are idealized as rationals inside the
    executable pipeline; statements that depend on analytic properties of
    Math.log / Math.exp are additionally stated over the reals through the
    polymorphic definitions below.
  - Math.exp, Math.log, Math.sqrt and the tokenizer closure `tok` are
    supplied through an `Env` record: the pipeline uses them as opaque
    functions exactly as the source calls them.  `Env.tk n s` stands for
    `tok(s)` with `minTokenLength = n` and the active stopword set baked in
    (the claims under verification do not depend on the internals of the
    Unicode regular expression inside `tok`).
  - A value read by `Number(this.getNodeParameter(...))` is modelled as an
    `Option` of a number, `none` standing for NaN; the `|| default`
    fallback is the `jsOr...` functions (JavaScript treats 0 and NaN as
    falsy).  `topN`, `batchSize` and `minTokenLength` are counts and are
    modelled as natural numbers.
  - A JSON field that may be absent or of the wrong runtime type is an
    `Option` field; `none` covers both absence and a failed type check.
  - The `throw` / outer `try ... catch` control flow of the source is
    modelled by making `execute` total: every path that throws in the
    source returns the single-element error list that the catch block
    builds (`[{ error: true, message }]` is `[Out.err message]`); message
    texts are kept except that quote characters are dropped.
  - Side effects that do not influence the returned value (the weight-sum
    warning on lines 88-92 and the `debug` breakdown, which is a pure
    function of data already modelled) are omitted.
-/

namespace Reranker

/-- Fields of `it.json` for one candidate document: `chunk`, and the
optional `embedding`, `score` and `timestamp` fields.  `timestamp` is the
millisecond value `new Date(ts).getTime()` would produce, `none` when the
field is absent, falsy or unparseable (NaN). -/
structure DocJson where
  chunk : String
  embedding : Option (List ℚ)
  score : Option ℚ
  timestamp : Option ℚ
deriving DecidableEq, Repr

/-- One entry of the `items` candidate array. -/
structure Item where
  json : DocJson
deriving DecidableEq, Repr

/-- The `json` payload of the first input item: `query`,
`query_embedding` and `items`.  `none` models a missing field or one that
fails the `typeof` / `Array.isArray` check on lines 99-101. -/
structure FirstJson where
  query : Option String
  query_embedding : Option (List ℚ)
  items : Option (List Item)
deriving DecidableEq, Repr

/-- One element of the input item array returned by `getInputData()`. -/
structure InputItem where
  json : FirstJson
deriving DecidableEq, Repr

/-- A scored output record: the spread `{...p.it, json: {...p.it.json,
rerank_score, bm25_raw}}` keeps every original field and adds the two
score fields, so it is modelled as the original item plus the scores. -/
structure RankedItem where
  it : Item
  rerank_score : ℚ
  bm25_raw : ℚ
deriving DecidableEq, Repr

/-- An element of the returned array: either the error object
`{ error: true, message }` produced by the catch block, or a scored
document. -/
inductive Out where
  | err (message : String)
  | doc (d : RankedItem)
deriving DecidableEq, Repr

/-- The `rerank_score` of an output element (an error element has no
score; 0 is used so that ordering statements can be phrased uniformly,
error elements never occur in a ranked list). -/
def rerankOf : Out → ℚ
  | Out.err _ => 0
  | Out.doc d => d.rerank_score

/-- The parsed learned-model coefficients, in source order
`sem,bm25,exact,rec,bias` (line 147). -/
structure ModelWeights where
  wSem : ℚ
  wBm25 : ℚ
  wExact : ℚ
  wRec : ℚ
  bias : ℚ
deriving DecidableEq, Repr

/-- External functions used by `execute`: the string runtime and the
math library.  `tk n s` is `tok(s)` with `minTokenLength = n`;
`lowerTrim` is `s.toLowerCase().trim()` as called on line 103; `expFn`,
`logFn`, `sqrtFn` are Math.exp, Math.log, Math.sqrt. -/
structure Env where
  tk : ℕ → String → List String
  lowerTrim : String → String
  expFn : ℚ → ℚ
  logFn : ℚ → ℚ
  sqrtFn : ℚ → ℚ

/-- Raw configuration as read on lines 73-95: numeric parameters before
the `|| default` fallback (`none` = NaN), and `modelWeights` already split
on commas with every piece mapped through `Number(x.trim())`
(`none` = NaN), which is what line 145 computes before filtering. -/
structure RawConfig where
  topN : Option ℕ
  batchSize : Option ℕ
  useExternalScore : Bool
  recencyHalfLife : Option ℚ
  minTokenLength : Option ℕ
  debug : Bool
  normalizeMethod : Option String
  semWeight : Option ℚ
  lexWeight : Option ℚ
  exactWeight : Option ℚ
  timeWeight : Option ℚ
  useModel : Bool
  modelWeights : List (Option ℚ)
deriving DecidableEq, Repr

/-- JavaScript `Number(x) || d` for a rational parameter: NaN (`none`)
and 0 are falsy and fall back to the default. -/
def jsOrQ (v : Option ℚ) (d : ℚ) : ℚ :=
  match v with
  | none => d
  | some x => if x = 0 then d else x

/-- JavaScript `Number(x) || d` for a count-valued parameter. -/
def jsOrNat (v : Option ℕ) (d : ℕ) : ℕ :=
  match v with
  | none => d
  | some x => if x = 0 then d else x

/-- JavaScript `String(x || d)` for the normalization method: an absent
or empty string falls back to the default. -/
def jsOrStr (v : Option String) (d : String) : String :=
  match v with
  | none => d
  | some s => if s = "" then d else s

/-- Effective configuration after the fallbacks of lines 73-95. -/
structure Config where
  topN : ℕ
  batchSize : ℕ
  useExternalScore : Bool
  recencyHalfLife : ℚ
  minTokenLength : ℕ
  debug : Bool
  normalizeMethod : String
  semW : ℚ
  lexW : ℚ
  exactW : ℚ
  timeW : ℚ
  useModel : Bool
  modelWeights : List (Option ℚ)
deriving DecidableEq, Repr

/-- Parameter resolution, lines 73-95 of the source. -/
def resolveConfig (raw : RawConfig) : Config where
  topN := jsOrNat raw.topN 5
  batchSize := jsOrNat raw.batchSize 200
  useExternalScore := raw.useExternalScore
  recencyHalfLife := jsOrQ raw.recencyHalfLife 60
  minTokenLength := jsOrNat raw.minTokenLength 2
  debug := raw.debug
  normalizeMethod := jsOrStr raw.normalizeMethod "sigmoid"
  semW := jsOrQ raw.semWeight (7/10)
  lexW := jsOrQ raw.lexWeight (1/4)
  exactW := jsOrQ raw.exactWeight (1/10)
  timeW := jsOrQ raw.timeWeight (1/20)
  useModel := raw.useModel
  modelWeights := raw.modelWeights

/-- Lines 145-147: split pieces are filtered for NaN
(`filter(x => !Number.isNaN(x))` is `filterMap id`); exactly five surviving
numbers are required, and they become the coefficients in order. -/
def parseModelWeights (pieces : List (Option ℚ)) : Option ModelWeights :=
  match pieces.filterMap id with
  | [a, b2, c, d, e] => some ⟨a, b2, c, d, e⟩
  | _ => none

/-- The `cos` helper on lines 112-118. -/
def cosSim (sqrtFn : ℚ → ℚ) (a b2 : List ℚ) : ℚ :=
  if a.length = 0 ∨ b2.length = 0 ∨ a.length ≠ b2.length then 0
  else
    let dot := (List.zipWith (fun x y => x * y) a b2).sum
    let na := (a.map (fun x => x * x)).sum
    let nb := (b2.map (fun x => x * x)).sum
    let denom := sqrtFn na * sqrtFn nb
    if denom = 0 then 0 else dot / denom

/-- One BM25 term contribution, the summand on line 184 with k1 = 1.2 and
b = 0.75 substituted (6/5 and 3/4).  Polymorphic so that the same formula
is both executed over the rationals inside the pipeline and reasoned
about over the reals with the genuine Math.log. -/
def bm25TermContrib {α : Type} [Field α] (idf tf len avgLen : α) : α :=
  idf * ((tf * (6/5 + 1)) / (tf + (6/5) * (1 - 3/4 + (3/4) * (len / avgLen))))

/-- Line 183: `globalDF[t] || 1` inside the IDF ratio. -/
def dfOr1 (n : ℕ) : ℚ :=
  if n = 0 then 1 else (n : ℚ)

/-- The BM25 accumulation loop of lines 175-186: term frequencies come
from counting in the token list, terms with zero frequency are skipped,
`len` is the token count with the `|| 1` fallback of line 169, and the
loop runs over every occurrence in the query-token sequence. -/
def bm25Of (logFn : ℚ → ℚ) (qTok dTok : List String) (corpusSize : ℕ)
    (df : String → ℕ) (avgLen : ℚ) : ℚ :=
  let len : ℚ := if dTok.length = 0 then 1 else (dTok.length : ℚ)
  qTok.foldl (fun acc t =>
    let tf := dTok.count t
    if tf = 0 then acc
    else acc + bm25TermContrib
      (logFn (((corpusSize : ℚ) + 1) / dfOr1 (df t))) (tf : ℚ) len avgLen) 0

/-- Line 188: `qTok.filter(t => dSet.has(t)).length / qTok.length`. -/
def exactOverlap (qTok dTok : List String) : ℚ :=
  ((qTok.filter (fun t => dTok.contains t)).length : ℚ) / (qTok.length : ℚ)

/-- Modelled from the spec: the exact-overlap signal as the specification
words it, namely the fraction of DISTINCT query tokens present in the
document token set.  Stated only to be compared against `exactOverlap`,
which is the fraction the source actually computes. -/
def exactOverlapDistinct (qTok dTok : List String) : ℚ :=
  ((qTok.dedup.filter (fun t => dTok.contains t)).length : ℚ) /
    ((qTok.dedup.length : ℕ) : ℚ)

/-- Increment of one counter of the `globalDF` object. -/
def dfBump (m : String → ℕ) (t : String) : String → ℕ :=
  fun u => if u = t then m t + 1 else m u

/-- The inner loop of lines 152-155: for one document token set, walk the
query-token sequence and bump the counter of every query token the set
contains. -/
def dfAddDoc (qTok dTok : List String) (m : String → ℕ) : String → ℕ :=
  qTok.foldl (fun m2 t => if dTok.contains t then dfBump m2 t else m2) m

/-- Lines 150-155: the global document-frequency map, built over the
whole candidate list before the batch loop starts; `tkDoc` is the
tokenization of one document (`tok(it.json?.chunk || "")`). -/
def globalDF (tkDoc : Item → List String) (qTok : List String)
    (docs : List Item) : String → ℕ :=
  docs.foldl (fun m it => dfAddDoc qTok (tkDoc it) m) (fun _ => 0)

/-- The sigmoid normalizer of line 207, `1 / (1 + Math.exp(-v))`, with
the exponential passed in; also the logistic link of line 220. -/
def sigmoidNorm {α : Type} [Field α] (expF : α → α) (v : α) : α :=
  1 / (1 + expF (-v))

/-- `Math.min(...vals)` over a batch; batches are never empty, the value
for the empty list is junk. -/
def batchMin {α : Type} [LinearOrder α] [Zero α] : List α → α
  | [] => 0
  | x :: xs => xs.foldl min x

/-- `Math.max(...vals)` over a batch; same remark about the empty list. -/
def batchMax {α : Type} [LinearOrder α] [Zero α] : List α → α
  | [] => 0
  | x :: xs => xs.foldl max x

/-- The min-max normalizer built on lines 201-204 from the raw BM25
values of one batch. -/
def minmaxNorm {α : Type} [LinearOrder α] [Field α] (vals : List α) (v : α) : α :=
  let mn := batchMin vals
  let mx := batchMax vals
  if mx = mn then 0 else (v - mn) / (mx - mn)

/-- Line 162: mean token count of the batch, with the
`Math.max(batch.length, 1)` denominator guard. -/
def batchAvgLen (tkDoc : Item → List String) (batch : List Item) : ℚ :=
  (batch.foldl (fun s d => s + ((tkDoc d).length : ℚ)) 0) /
    ((max batch.length 1 : ℕ) : ℚ)

/-- The raw per-document signals of the first pass, lines 165-196. -/
structure Pre where
  it : Item
  sem : ℚ
  bm25 : ℚ
  exactOv : ℚ
  recency : ℚ
deriving DecidableEq, Repr

/-- First-pass computation for one document, lines 165-195: semantic
score (external or cosine), BM25 against the global DF, exact overlap,
and recency decay from the timestamp (999-day sentinel when absent). -/
def rawSignals (env : Env) (cfg : Config) (qTok : List String)
    (qEmb : List ℚ) (corpusSize : ℕ) (df : String → ℕ) (avgLen : ℚ)
    (now : ℚ) (it : Item) : Pre :=
  let dTok := env.tk cfg.minTokenLength it.json.chunk
  let sem :=
    if cfg.useExternalScore then
      match it.json.score with
      | some s => s
      | none => 0
    else
      match it.json.embedding with
      | some emb =>
        if qEmb.length ≠ 0 ∧ emb.length ≠ 0 then cosSim env.sqrtFn qEmb emb else 0
      | none => 0
  let bm := bm25Of env.logFn qTok dTok corpusSize df avgLen
  let ex := exactOverlap qTok dTok
  let days : ℚ :=
    match it.json.timestamp with
    | none => 999
    | some t => (now - t) / 86400000
  let recv := env.expFn (-(days / cfg.recencyHalfLife))
  ⟨it, sem, bm, ex, recv⟩

/-- Second-pass score fusion for one document, lines 211-227: logistic
blend when the learned model is active, weighted sum otherwise.  `nb` is
the normalized BM25 value. -/
def fuse (env : Env) (cfg : Config) (mw : Option ModelWeights) (nb : ℚ)
    (p : Pre) : ℚ :=
  match mw with
  | some m =>
    sigmoidNorm env.expFn
      (p.sem * m.wSem + nb * m.wBm25 + p.exactOv * m.wExact +
        p.recency * m.wRec + m.bias)
  | none =>
    p.sem * cfg.semW + nb * cfg.lexW + p.exactOv * cfg.exactW +
      p.recency * cfg.timeW

/-- One iteration of the batch loop, lines 158-239: batch average length,
first pass, normalizer construction from this batch, second pass. -/
def scoreBatch (env : Env) (cfg : Config) (qTok : List String)
    (qEmb : List ℚ) (corpusSize : ℕ) (df : String → ℕ) (now : ℚ)
    (mw : Option ModelWeights) (batch : List Item) : List RankedItem :=
  let tkDoc := fun it => env.tk cfg.minTokenLength it.json.chunk
  let avgLen := batchAvgLen tkDoc batch
  let pre := batch.map (rawSignals env cfg qTok qEmb corpusSize df avgLen now)
  let nb : ℚ → ℚ :=
    if cfg.normalizeMethod = "minmax" then minmaxNorm (pre.map (fun p => p.bm25))
    else sigmoidNorm env.expFn
  pre.map (fun p => ⟨p.it, fuse env cfg mw (nb p.bm25) p, p.bm25⟩)

/-- Successive slices `docs.slice(i, i + bs)` of the batch loop header on
line 158.  The fuel argument bounds the number of iterations; since the
loop step is `i += bs` with `bs ≥ 1`, `l.length` iterations always
suffice and `chunks` below instantiates the fuel that way. -/
def chunksGo {α : Type} (bs : ℕ) : ℕ → List α → List (List α)
  | 0, _ => []
  | _ + 1, [] => []
  | fuel + 1, x :: xs => (x :: xs).take bs :: chunksGo bs fuel ((x :: xs).drop bs)

/-- The list of batches the loop on line 158 processes. -/
def chunks {α : Type} (bs : ℕ) (l : List α) : List (List α) :=
  chunksGo bs l.length l

/-- Descending order on scored records, the comparator
`(a, b) => b.json.rerank_score - a.json.rerank_score` of line 243. -/
def descRank (a b2 : RankedItem) : Prop :=
  b2.rerank_score ≤ a.rerank_score

instance : DecidableRel descRank :=
  fun a b2 => inferInstanceAs (Decidable (b2.rerank_score ≤ a.rerank_score))

instance : IsTotal RankedItem descRank :=
  ⟨fun a b2 => le_total b2.rerank_score a.rerank_score⟩

instance : IsTrans RankedItem descRank :=
  ⟨fun _ _ _ h1 h2 => le_trans h2 h1⟩

/-- Descending order on output elements, used to state sortedness of the
returned list. -/
def outDesc (a b2 : Out) : Prop :=
  rerankOf b2 ≤ rerankOf a

/-- The scoring pipeline after validation succeeded, lines 150-244:
global DF pass, batch loop, sort descending, slice to `topN`. -/
def rank (env : Env) (cfg : Config) (qTok : List String) (qEmb : List ℚ)
    (docs : List Item) (now : ℚ) (mw : Option ModelWeights) : List Out :=
  let tkDoc := fun it => env.tk cfg.minTokenLength it.json.chunk
  let df := globalDF tkDoc qTok docs
  let results := (chunks cfg.batchSize docs).flatMap
    (scoreBatch env cfg qTok qEmb docs.length df now mw)
  ((List.insertionSort descRank results).take cfg.topN).map Out.doc

/-- The body of `execute` for the first input item, lines 98-244:
validation, query normalization and tokenization, the empty
short-circuit of line 135, the model-weight gate of lines 143-148, then
the scoring pipeline. -/
def run (env : Env) (cfg : Config) (first : FirstJson) (now : ℚ) : List Out :=
  match first.query with
  | none => [Out.err "Missing or invalid query."]
  | some q =>
    match first.query_embedding with
    | none => [Out.err "Missing or invalid query_embedding."]
    | some qEmb =>
      match first.items with
      | none => [Out.err "Missing or invalid items array."]
      | some docs =>
        let query := env.lowerTrim q
        let qTok := env.tk cfg.minTokenLength query
        if qTok = [] ∨ docs = [] then []
        else
          if cfg.useModel then
            match parseModelWeights cfg.modelWeights with
            | none =>
              [Out.err "Model weights must contain exactly 5 numbers: sem,bm25,exact,rec,bias"]
            | some mw => rank env cfg qTok qEmb docs now (some mw)
          else rank env cfg qTok qEmb docs now none

/-- The whole `execute` method: the input-array emptiness check of line
70, parameter resolution, then the body on the first item.  `now` is the
`Date.now()` value of line 139. -/
def execute (env : Env) (raw : RawConfig) (inputs : List InputItem)
    (now : ℚ) : List Out :=
  match inputs with
  | [] => [Out.err "No input items provided."]
  | first :: _ => run env (resolveConfig raw) first.json now

/-! Concrete instantiations used by witnesses and counterexamples.  The
tokenizer is given by finite case analysis so that the kernel can
evaluate it; every value it returns is one the real `tok` produces on
the same text (whitespace-separated words of length at least 2, no
stopwords).  The math functions are placeholder computable functions:
no witness or counterexample below depends on their analytic behavior
beyond what the accompanying theorem proves. -/

/-- A concrete tokenizer for test inputs, agreeing with `tok` at
`minTokenLength = 2` on every string it is applied to in this file:
the listed texts are whitespace-separated words of length 2 that are
not stopwords, and every other string (in particular the empty string
and any single-character text, whose only token is shorter than the
minimum length) tokenizes to the empty list. -/
def tkW : ℕ → String → List String :=
  fun _ s =>
    if s = "aa" then ["aa"]
    else if s = "bb" then ["bb"]
    else if s = "aa aa" then ["aa", "aa"]
    else if s = "aa aa bb" then ["aa", "aa", "bb"]
    else []

/-- Document tokenization built from `tkW` the same way `rank` builds it
from `Env.tk`. -/
def tkDocW : Item → List String :=
  fun it => tkW 2 it.json.chunk

/-- Concrete environment for witnesses: `tkW` with identity stand-ins
for the math library (their analytic behavior is irrelevant to the facts
proved with this environment). -/
def envW : Env :=
  ⟨tkW, fun s => s, fun x => x, fun x => x, fun x => x⟩

/-- Default raw configuration: every numeric parameter NaN-or-absent, so
every fallback default applies. -/
def rawW : RawConfig :=
  ⟨none, none, false, none, none, false, none, none, none, none, none, false, []⟩

/-- A candidate document whose chunk is the single token `aa`, carrying
the epoch timestamp 0. -/
def docW : Item := ⟨⟨"aa", none, none, some 0⟩⟩

/-- A well-formed first input item with query `aa` and one candidate. -/
def firstW : FirstJson := ⟨some "aa", some [], some [docW]⟩

/-- Documents for the document-frequency tests: token `aa` appears in
exactly two of the three. -/
def docsW : List Item := [⟨⟨"aa", none, none, none⟩⟩, ⟨⟨"aa", none, none, none⟩⟩,
  ⟨⟨"bb", none, none, none⟩⟩]

/-- Three documents all containing the token `aa`. -/
def docsAllW : List Item := [⟨⟨"aa", none, none, none⟩⟩, ⟨⟨"aa", none, none, none⟩⟩,
  ⟨⟨"aa", none, none, none⟩⟩]

/-- A candidate document with no timestamp field. -/
def docNoTsW : Item := ⟨⟨"aa", none, none, none⟩⟩

/-- A well-formed first input item whose only candidate carries no
timestamp. -/
def firstNoTsW : FirstJson := ⟨some "aa", some [], some [docNoTsW]⟩

/-- A raw configuration with the learned model enabled and a weights
string that parses to only two numbers. -/
def rawM : RawConfig :=
  ⟨none, none, false, none, none, false, none, none, none, none, none, true,
    [some (1/10), some (2/10)]⟩

/-- A first input item whose candidate list is empty (it passes the
`Array.isArray` validation, its query tokenizes to the non-empty
`[aa]`, and only the empty candidate list triggers the short-circuit). -/
def firstEmptyW : FirstJson := ⟨some "aa", some [], some []⟩

/-- A first input item with the model configuration target: query `aa`
and one candidate document. -/
def firstOneW : FirstJson := ⟨some "aa", some [], some [docW]⟩

end Reranker

namespace Reranker

/-! General lemmas about the embedded operations. -/

/-- The `|| default` fallback never yields 0 when the default is
positive: the resolved `topN` and `batchSize` are always positive. -/
theorem jsOrNat_pos (v : Option ℕ) (d : ℕ) (hd : 0 < d) : 0 < jsOrNat v d := by
  cases v with
  | none => simpa [jsOrNat] using hd
  | some x =>
    by_cases hx : x = 0
    · simpa [jsOrNat, hx] using hd
    · simpa [jsOrNat, hx] using Nat.pos_of_ne_zero hx

/-- Every element of a batch is an element of the candidate list being
chunked. -/
theorem mem_of_mem_chunksGo {α : Type} (bs : ℕ) :
    ∀ (fuel : ℕ) (l b2 : List α), b2 ∈ chunksGo bs fuel l → ∀ x ∈ b2, x ∈ l := by
  intro fuel
  induction fuel with
  | zero => intro l b2 hb; simp [chunksGo] at hb
  | succ fuel ih =>
    intro l b2 hb x hx
    match l with
    | [] => simp [chunksGo] at hb
    | y :: ys =>
      simp only [chunksGo, List.mem_cons] at hb
      rcases hb with hb | hb
      · exact List.take_subset _ _ (hb ▸ hx)
      · exact List.drop_subset _ _ (ih _ _ hb x hx)

/-- With a positive batch size and enough fuel, the chunks concatenate
back to the original list. -/
theorem chunksGo_flatten {α : Type} (bs : ℕ) (hbs : 0 < bs) :
    ∀ (fuel : ℕ) (l : List α), l.length ≤ fuel → (chunksGo bs fuel l).flatten = l := by
  intro fuel
  induction fuel with
  | zero =>
    intro l hl
    have : l = [] := List.length_eq_zero.mp (Nat.le_zero.mp hl)
    simp [this, chunksGo]
  | succ fuel ih =>
    intro l hl
    match l with
    | [] => simp [chunksGo]
    | y :: ys =>
      have hdrop : ((y :: ys).drop bs).length ≤ fuel := by
        have : ((y :: ys).drop bs).length = (y :: ys).length - bs := List.length_drop _ _
        have hlen : (y :: ys).length ≤ fuel + 1 := hl
        omega
      simp only [chunksGo, List.flatten_cons, ih _ hdrop, List.take_append_drop]

/-- Scoring a batch produces one output per batch element. -/
theorem scoreBatch_length (env : Env) (cfg : Config) (qTok : List String)
    (qEmb : List ℚ) (corpusSize : ℕ) (df : String → ℕ) (now : ℚ)
    (mw : Option ModelWeights) (batch : List Item) :
    (scoreBatch env cfg qTok qEmb corpusSize df now mw batch).length = batch.length := by
  simp [scoreBatch]

/-- The batch loop scores every document exactly once. -/
theorem flatMap_chunksGo_length (env : Env) (cfg : Config) (qTok : List String)
    (qEmb : List ℚ) (corpusSize : ℕ) (df : String → ℕ) (now : ℚ)
    (mw : Option ModelWeights) (bs : ℕ) (hbs : 0 < bs) :
    ∀ (fuel : ℕ) (l : List Item), l.length ≤ fuel →
      ((chunksGo bs fuel l).flatMap
        (scoreBatch env cfg qTok qEmb corpusSize df now mw)).length = l.length := by
  intro fuel
  induction fuel with
  | zero =>
    intro l hl
    have : l = [] := List.length_eq_zero.mp (Nat.le_zero.mp hl)
    simp [this, chunksGo]
  | succ fuel ih =>
    intro l hl
    match l with
    | [] => simp [chunksGo]
    | y :: ys =>
      have hdrop : ((y :: ys).drop bs).length ≤ fuel := by
        have : ((y :: ys).drop bs).length = (y :: ys).length - bs := List.length_drop _ _
        have hlen : (y :: ys).length ≤ fuel + 1 := hl
        omega
      have htd : ((y :: ys).take bs).length + ((y :: ys).drop bs).length
          = (y :: ys).length := by
        rw [List.length_take, List.length_drop]; omega
      simp only [chunksGo, List.flatMap_cons, List.length_append, scoreBatch_length,
        ih _ hdrop]
      omega

/-- Closed form of the inner document-frequency loop: one document adds
the multiplicity of `u` in the query-token sequence when its token set
contains `u`, and nothing otherwise. -/
theorem dfAddDoc_apply (qTok dTok : List String) (m : String → ℕ) (u : String) :
    dfAddDoc qTok dTok m u
      = m u + (if dTok.contains u then qTok.count u else 0) := by
  induction qTok generalizing m with
  | nil => simp [dfAddDoc]
  | cons t ts ih =>
    have step : dfAddDoc (t :: ts) dTok m
        = dfAddDoc ts dTok (if dTok.contains t then dfBump m t else m) := by
      simp [dfAddDoc]
    rw [step, ih]
    by_cases htu : u = t
    · subst htu
      by_cases hc : dTok.contains u = true
      · rw [if_pos hc, if_pos hc, if_pos hc, dfBump, if_pos rfl,
          List.count_cons_self]
        omega
      · rw [if_neg hc, if_neg hc, if_neg hc]
    · have hcount : (t :: ts).count u = ts.count u :=
        List.count_cons_of_ne htu _
      rw [hcount]
      by_cases hc : dTok.contains t = true
      · rw [if_pos hc, dfBump, if_neg htu]
      · rw [if_neg hc]

/-- Closed form of the global document-frequency map: the counter of `u`
is the number of documents whose token set contains `u`, multiplied by
the multiplicity of `u` in the query-token sequence. -/
theorem globalDF_apply (tkDoc : Item → List String) (qTok : List String)
    (docs : List Item) (u : String) :
    globalDF tkDoc qTok docs u
      = (docs.filter (fun d => (tkDoc d).contains u)).length * qTok.count u := by
  suffices h : ∀ (m : String → ℕ),
      (docs.foldl (fun m2 it => dfAddDoc qTok (tkDoc it) m2) m) u
        = m u + (docs.filter (fun d => (tkDoc d).contains u)).length * qTok.count u by
    have h0 := h (fun _ => 0)
    simpa [globalDF] using h0
  induction docs with
  | nil => intro m; simp
  | cons d ds ih =>
    intro m
    rw [List.foldl_cons, ih, dfAddDoc_apply, List.filter_cons]
    by_cases hc : (tkDoc d).contains u = true
    · rw [if_pos hc, if_pos hc, List.length_cons, Nat.add_mul, Nat.one_mul]
      omega
    · rw [if_neg hc, if_neg hc]
      omega

/-- The folded minimum is below the seed. -/
theorem foldl_min_le_seed {α : Type} [LinearOrder α] :
    ∀ (xs : List α) (a : α), xs.foldl min a ≤ a := by
  intro xs
  induction xs with
  | nil => intro a; simp
  | cons x xs ih =>
    intro a
    calc (x :: xs).foldl min a = xs.foldl min (min a x) := by simp
    _ ≤ min a x := ih _
    _ ≤ a := min_le_left _ _

/-- The folded minimum is below every list element. -/
theorem foldl_min_le_mem {α : Type} [LinearOrder α] :
    ∀ (xs : List α) (a v : α), v ∈ xs → xs.foldl min a ≤ v := by
  intro xs
  induction xs with
  | nil => intro a v hv; simp at hv
  | cons x xs ih =>
    intro a v hv
    rcases List.mem_cons.mp hv with hv | hv
    · subst hv
      calc (v :: xs).foldl min a = xs.foldl min (min a v) := by simp
      _ ≤ min a v := foldl_min_le_seed _ _
      _ ≤ v := min_le_right _ _
    · simpa using ih (min a x) v hv

/-- The folded maximum is above the seed. -/
theorem seed_le_foldl_max {α : Type} [LinearOrder α] :
    ∀ (xs : List α) (a : α), a ≤ xs.foldl max a := by
  intro xs
  induction xs with
  | nil => intro a; simp
  | cons x xs ih =>
    intro a
    calc a ≤ max a x := le_max_left _ _
    _ ≤ xs.foldl max (max a x) := ih _
    _ = (x :: xs).foldl max a := by simp

/-- The folded maximum is above every list element. -/
theorem mem_le_foldl_max {α : Type} [LinearOrder α] :
    ∀ (xs : List α) (a v : α), v ∈ xs → v ≤ xs.foldl max a := by
  intro xs
  induction xs with
  | nil => intro a v hv; simp at hv
  | cons x xs ih =>
    intro a v hv
    rcases List.mem_cons.mp hv with hv | hv
    · subst hv
      calc v ≤ max a v := le_max_right _ _
      _ ≤ xs.foldl max (max a v) := seed_le_foldl_max _ _
      _ = (v :: xs).foldl max a := by simp
    · simpa using ih (max a x) v hv

/-- `Math.min` of a batch bounds each batch member from below. -/
theorem batchMin_le {α : Type} [LinearOrder α] [Zero α] (vals : List α) (v : α)
    (hv : v ∈ vals) : batchMin vals ≤ v := by
  match vals with
  | [] => simp at hv
  | x :: xs =>
    rcases List.mem_cons.mp hv with hv | hv
    · subst hv; exact foldl_min_le_seed xs v
    · exact foldl_min_le_mem xs x v hv

/-- `Math.max` of a batch bounds each batch member from above. -/
theorem le_batchMax {α : Type} [LinearOrder α] [Zero α] (vals : List α) (v : α)
    (hv : v ∈ vals) : v ≤ batchMax vals := by
  match vals with
  | [] => simp at hv
  | x :: xs =>
    rcases List.mem_cons.mp hv with hv | hv
    · subst hv; exact seed_le_foldl_max xs v
    · exact mem_le_foldl_max xs x v hv

/-- The ranked list of the scoring pipeline has one entry per candidate
document, cut to `topN`. -/
theorem rank_length (env : Env) (cfg : Config) (qTok : List String)
    (qEmb : List ℚ) (docs : List Item) (now : ℚ) (mw : Option ModelWeights)
    (hbs : 0 < cfg.batchSize) :
    (rank env cfg qTok qEmb docs now mw).length = min cfg.topN docs.length := by
  simp only [rank, chunks, List.length_map, List.length_take,
    List.length_insertionSort]
  rw [flatMap_chunksGo_length env cfg qTok qEmb docs.length _ now mw
    cfg.batchSize hbs docs.length docs (le_refl _)]

/-- The ranked list of the scoring pipeline is sorted by `rerank_score`
descending. -/
theorem rank_sorted (env : Env) (cfg : Config) (qTok : List String)
    (qEmb : List ℚ) (docs : List Item) (now : ℚ) (mw : Option ModelWeights) :
    List.Sorted outDesc (rank env cfg qTok qEmb docs now mw) := by
  simp only [rank]
  have h1 : List.Sorted descRank
      (List.insertionSort descRank ((chunks cfg.batchSize docs).flatMap
        (scoreBatch env cfg qTok qEmb docs.length
          (globalDF (fun it => env.tk cfg.minTokenLength it.json.chunk) qTok docs)
          now mw))) :=
    List.sorted_insertionSort descRank _
  have h2 := List.Pairwise.sublist (List.take_sublist cfg.topN _) h1
  exact List.Pairwise.map Out.doc
    (fun a b2 h => by simpa [outDesc, rerankOf] using h) h2

/-- `Date.now()` reaches the raw signals only through the recency age;
a document with no parseable timestamp uses the 999-day sentinel, so its
signals do not depend on the invocation time. -/
theorem rawSignals_now_eq (env : Env) (cfg : Config) (qTok : List String)
    (qEmb : List ℚ) (corpusSize : ℕ) (df : String → ℕ) (avgLen : ℚ)
    (now now2 : ℚ) (it : Item) (h : it.json.timestamp = none) :
    rawSignals env cfg qTok qEmb corpusSize df avgLen now it
      = rawSignals env cfg qTok qEmb corpusSize df avgLen now2 it := by
  simp [rawSignals, h]

/-- A batch of timestamp-free documents is scored identically at any two
invocation times. -/
theorem scoreBatch_now_eq (env : Env) (cfg : Config) (qTok : List String)
    (qEmb : List ℚ) (corpusSize : ℕ) (df : String → ℕ) (now now2 : ℚ)
    (mw : Option ModelWeights) (batch : List Item)
    (h : ∀ d ∈ batch, d.json.timestamp = none) :
    scoreBatch env cfg qTok qEmb corpusSize df now mw batch
      = scoreBatch env cfg qTok qEmb corpusSize df now2 mw batch := by
  have hpre : batch.map (rawSignals env cfg qTok qEmb corpusSize df
        (batchAvgLen (fun it => env.tk cfg.minTokenLength it.json.chunk) batch) now)
      = batch.map (rawSignals env cfg qTok qEmb corpusSize df
        (batchAvgLen (fun it => env.tk cfg.minTokenLength it.json.chunk) batch) now2) :=
    List.map_congr_left (fun it hit =>
      rawSignals_now_eq env cfg qTok qEmb corpusSize df _ now now2 it (h it hit))
  simp only [scoreBatch, hpre]

/-- Concatenated maps agree when the functions agree on the list. -/
theorem flatMap_congr_left {α β : Type} (l : List α) (f g : α → List β)
    (h : ∀ a ∈ l, f a = g a) : l.flatMap f = l.flatMap g := by
  induction l with
  | nil => simp
  | cons x xs ih =>
    simp only [List.flatMap_cons, h x (List.mem_cons_self x xs),
      ih (fun a ha => h a (List.mem_cons_of_mem x ha))]

/-- The ranked output of the scoring pipeline does not depend on the
invocation time when no candidate document carries a timestamp. -/
theorem rank_now_eq (env : Env) (cfg : Config) (qTok : List String)
    (qEmb : List ℚ) (docs : List Item) (now now2 : ℚ)
    (mw : Option ModelWeights) (h : ∀ d ∈ docs, d.json.timestamp = none) :
    rank env cfg qTok qEmb docs now mw = rank env cfg qTok qEmb docs now2 mw := by
  simp only [rank]
  congr 1
  congr 1
  congr 1
  exact flatMap_congr_left _ _ _ (fun b2 hb =>
    scoreBatch_now_eq env cfg qTok qEmb docs.length _ now now2 mw b2
      (fun d hd => h d (mem_of_mem_chunksGo cfg.batchSize docs.length docs b2 hb d hd)))

/-- The five-coefficient gate of lines 144-148: parsing fails exactly
when the NaN-filtered piece list does not have length 5. -/
theorem parseModelWeights_none_iff (ps : List (Option ℚ)) :
    parseModelWeights ps = none ↔ (ps.filterMap id).length ≠ 5 := by
  unfold parseModelWeights
  rcases hl : ps.filterMap id with _ | ⟨a, _ | ⟨b2, _ | ⟨c, _ | ⟨d, _ | ⟨e, _ | ⟨f, tail⟩⟩⟩⟩⟩⟩ <;>
    simp

end Reranker

namespace Reranker

/-! Claim theorems. -/

/-- C1: every successful invocation with a non-empty query-token
sequence and a non-empty candidate list returns exactly
`min(topN, number of candidate documents)` records, sorted by
`rerank_score` descending (`topN` is the effective value after the
`|| 5` fallback). -/
theorem c1_top_n_sorted (env : Env) (raw : RawConfig) (first : FirstJson)
    (rest : List InputItem) (now : ℚ) (q : String) (qe : List ℚ)
    (ds : List Item) (hq : first.query = some q)
    (he : first.query_embedding = some qe) (hi : first.items = some ds)
    (hqt : env.tk (resolveConfig raw).minTokenLength (env.lowerTrim q) ≠ [])
    (hds : ds ≠ [])
    (hmw : raw.useModel = true → parseModelWeights raw.modelWeights ≠ none) :
    (execute env raw (⟨first⟩ :: rest) now).length
        = min (resolveConfig raw).topN ds.length
      ∧ List.Sorted outDesc (execute env raw (⟨first⟩ :: rest) now) := by
  have hbs : 0 < (resolveConfig raw).batchSize :=
    jsOrNat_pos raw.batchSize 200 (by norm_num)
  have hrun : execute env raw (⟨first⟩ :: rest) now
      = run env (resolveConfig raw) first now := rfl
  rw [hrun]
  simp only [run, hq, he, hi]
  rw [if_neg (by simp [hqt, hds])]
  by_cases hum : (resolveConfig raw).useModel = true
  · rw [if_pos hum]
    have hum2 : raw.useModel = true := hum
    rcases Option.ne_none_iff_exists.mp (hmw hum2) with ⟨m, hm⟩
    have hmw2 : parseModelWeights (resolveConfig raw).modelWeights = some m :=
      hm.symm
    rw [hmw2]
    exact ⟨rank_length _ _ _ _ _ _ _ hbs, rank_sorted _ _ _ _ _ _ _⟩
  · rw [if_neg hum]
    exact ⟨rank_length _ _ _ _ _ _ _ hbs, rank_sorted _ _ _ _ _ _ _⟩

/-- Witness for C1: one candidate document and the default
configuration give a single output record, and the output is sorted. -/
theorem c1_top_n_sorted_witness :
    (execute envW rawW [⟨firstW⟩] 0).length
        = min (resolveConfig rawW).topN [docW].length
      ∧ List.Sorted outDesc (execute envW rawW [⟨firstW⟩] 0) :=
  c1_top_n_sorted envW rawW firstW [] 0 "aa" [] [docW] rfl rfl rfl
    (by decide) (by decide) (by decide)

/-- C3 (amended): the global document-frequency map assigns to each
query token its multiplicity in the query-token sequence times the
number of distinct documents whose token set contains it; hence, for a
query token occurring exactly once in the sequence, exactly the number
of distinct documents of the entire candidate set containing it.  The
map is a function of the query tokens and the full candidate list alone
(no batch-size argument), mirroring its construction before the batch
loop, so the value is independent of the batch size chosen. -/
theorem c3_global_df_count (tkDoc : Item → List String) (qTok : List String)
    (docs : List Item) (t : String) (h1 : qTok.count t = 1) :
    globalDF tkDoc qTok docs t
      = (docs.filter (fun d => (tkDoc d).contains t)).length := by
  rw [globalDF_apply, h1, Nat.mul_one]

/-- Witness for C3: query token `aa` occurring once, present in exactly
2 of the 3 candidate documents; its global count is that document
count. -/
theorem c3_global_df_count_witness :
    (["aa"] : List String).count "aa" = 1
      ∧ globalDF tkDocW ["aa"] docsW "aa"
        = (docsW.filter (fun d => (tkDocW d).contains "aa")).length :=
  ⟨by decide, c3_global_df_count tkDocW ["aa"] docsW "aa" (by decide)⟩

/-- Counterexample for C3 as stated: the real tokenizer maps the query
text `aa aa` to the duplicated sequence `[aa, aa]` (both tokens have
length 2 and are not stopwords); with token `aa` present in exactly 2 of
the 3 candidate documents the global map then holds 4, not the
document count 2, because the inner loop bumps the counter once per
occurrence in the query-token sequence. -/
theorem c3_global_df_cex :
    tkW 2 "aa aa" = ["aa", "aa"]
      ∧ globalDF tkDocW ["aa", "aa"] docsW "aa" = 4
      ∧ (docsW.filter (fun d => (tkDocW d).contains "aa")).length = 2
      ∧ globalDF tkDocW ["aa", "aa"] docsW "aa"
        ≠ (docsW.filter (fun d => (tkDocW d).contains "aa")).length := by
  refine ⟨by decide, by decide, by decide, by decide⟩

/-- C4 (amended): the exact-overlap signal is the fraction of
query-token occurrences (multiplicity counted in numerator and
denominator alike) that appear in the document token set; whenever the
query-token sequence has no duplicated token, this coincides with the
fraction of distinct query tokens the claim describes. -/
theorem c4_exact_overlap_nodup (qTok dTok : List String) (h : qTok.Nodup) :
    exactOverlap qTok dTok = exactOverlapDistinct qTok dTok := by
  simp [exactOverlap, exactOverlapDistinct, List.dedup_eq_self.mpr h]

/-- Witness for C4: a duplicate-free query-token sequence on which the
two fractions agree. -/
theorem c4_exact_overlap_nodup_witness :
    (["aa", "bb"] : List String).Nodup
      ∧ exactOverlap ["aa", "bb"] ["aa"] = exactOverlapDistinct ["aa", "bb"] ["aa"] :=
  ⟨by decide, c4_exact_overlap_nodup ["aa", "bb"] ["aa"] (by decide)⟩

/-- Counterexample for C4 as stated: the tokenizer maps `aa aa bb` to a
sequence with a duplicated token; against a document containing `aa`
the source computes 2/3 (occurrences), while the fraction of distinct
query tokens is 1/2. -/
theorem c4_exact_overlap_cex :
    tkW 2 "aa aa bb" = ["aa", "aa", "bb"]
      ∧ exactOverlap ["aa", "aa", "bb"] ["aa"] = 2/3
      ∧ exactOverlapDistinct ["aa", "aa", "bb"] ["aa"] = 1/2
      ∧ exactOverlap ["aa", "aa", "bb"] ["aa"]
        ≠ exactOverlapDistinct ["aa", "aa", "bb"] ["aa"] := by
  refine ⟨by decide, ?_, ?_, ?_⟩
  · simp +decide [exactOverlap, List.filter, List.contains]
  · simp +decide [exactOverlapDistinct, List.filter, List.contains, List.dedup, List.pwFilter]
  · simp +decide [exactOverlap, exactOverlapDistinct, List.filter, List.contains, List.dedup,
      List.pwFilter]
    norm_num

/-- C6 (amended): with document length, batch average length, corpus
size and global document frequency held fixed, increasing a query term
frequency never decreases the BM25 contribution
`idf(t) * tf*(k1+1) / (tf + k1*(1 - b + b*(len/avgLen)))`, provided the
document frequency does not exceed `corpusSize + 1`, so that
`idf = ln((corpusSize+1)/df)` is non-negative.  The proviso always holds
when the query-token sequence is duplicate-free; duplicated query tokens
can push the global counter above `corpusSize + 1` and flip the
monotonicity (see the counterexample). -/
theorem c6_bm25_tf_monotone (n df : ℕ) (tf tf2 len avgLen : ℝ)
    (hdf1 : 1 ≤ df) (hdfn : df ≤ n + 1) (hlen : 0 < len) (havg : 0 < avgLen)
    (htf : 0 ≤ tf) (hle : tf ≤ tf2) :
    bm25TermContrib (Real.log (((n : ℝ) + 1) / (df : ℝ))) tf len avgLen
      ≤ bm25TermContrib (Real.log (((n : ℝ) + 1) / (df : ℝ))) tf2 len avgLen := by
  have hdfpos : (0 : ℝ) < (df : ℝ) := by exact_mod_cast hdf1
  have hratio : (1 : ℝ) ≤ ((n : ℝ) + 1) / (df : ℝ) := by
    rw [le_div_iff₀ hdfpos]
    have : (df : ℝ) ≤ (n : ℝ) + 1 := by exact_mod_cast hdfn
    linarith
  have hidf : 0 ≤ Real.log (((n : ℝ) + 1) / (df : ℝ)) := Real.log_nonneg hratio
  have hda : 0 < len / avgLen := div_pos hlen havg
  have hC : 0 < (6/5 : ℝ) * (1 - 3/4 + (3/4) * (len / avgLen)) := by nlinarith
  unfold bm25TermContrib
  apply mul_le_mul_of_nonneg_left _ hidf
  rw [div_le_div_iff₀ (by nlinarith) (by nlinarith)]
  nlinarith [mul_le_mul_of_nonneg_right hle hC.le]

/-- Witness for C6: a concrete monotone step, term frequency 0 to 1 at
corpus size 1 and document frequency 1. -/
theorem c6_bm25_tf_monotone_witness :
    bm25TermContrib (Real.log (((1 : ℝ) + 1) / (1 : ℝ))) 0 1 1
      ≤ bm25TermContrib (Real.log (((1 : ℝ) + 1) / (1 : ℝ))) 1 1 1 := by
  have h := c6_bm25_tf_monotone 1 1 0 1 1 1 (by norm_num) (by norm_num)
    (by norm_num) (by norm_num) (by norm_num) (by norm_num)
  simpa using h

/-- Counterexample for C6 as stated: with the duplicated query-token
sequence `[aa, aa]` (produced by `tok` from the query text `aa aa`) over
three documents all containing `aa`, the global counter is 6, which
exceeds `corpusSize + 1 = 4`; the resulting IDF `ln(4/6)` is negative,
and raising the term frequency from 1 to 2 strictly DECREASES the BM25
contribution at document length 1 and batch average length 1. -/
theorem c6_bm25_tf_monotone_cex :
    globalDF tkDocW ["aa", "aa"] docsAllW "aa" = 6
      ∧ docsAllW.length = 3
      ∧ dfOr1 6 = 6
      ∧ bm25TermContrib (Real.log (((3 : ℝ) + 1) / 6)) 2 1 1
        < bm25TermContrib (Real.log (((3 : ℝ) + 1) / 6)) 1 1 1 := by
  refine ⟨by decide, by decide, by norm_num [dfOr1], ?_⟩
  have hlog : Real.log ((4 : ℝ) / 6) < 0 :=
    Real.log_neg (by norm_num) (by norm_num)
  unfold bm25TermContrib
  have h4 : ((3 : ℝ) + 1) / 6 = (4 : ℝ) / 6 := by norm_num
  rw [h4]
  have e1 : ((1 : ℝ) * (6/5 + 1)) / (1 + (6/5) * (1 - 3/4 + (3/4) * ((1:ℝ) / 1))) = 1 := by
    norm_num
  have e2 : ((2 : ℝ) * (6/5 + 1)) / (2 + (6/5) * (1 - 3/4 + (3/4) * ((1:ℝ) / 1))) = 11/8 := by
    norm_num
  rw [e1, e2]
  nlinarith [hlog]

/-- C7: the sigmoid normalizer `1/(1+exp(-v))` lies in `[0,1]` for every
finite raw input, and the min-max normalizer lies in `[0,1]` on every
raw BM25 value of the batch it was built from; when the batch maximum
equals the batch minimum it returns 0 for every input. -/
theorem c7_normalizer_bounds (v : ℝ) (vals : List ℚ) (w : ℚ) (hw : w ∈ vals) (u : ℚ) :
    (0 ≤ sigmoidNorm Real.exp v ∧ sigmoidNorm Real.exp v ≤ 1)
      ∧ (0 ≤ minmaxNorm vals w ∧ minmaxNorm vals w ≤ 1)
      ∧ (batchMax vals = batchMin vals → minmaxNorm vals u = 0) := by
  refine ⟨?_, ?_, ?_⟩
  · have he : 0 < Real.exp (-v) := Real.exp_pos _
    have hd : 0 < 1 + Real.exp (-v) := by linarith
    constructor
    · exact le_of_lt (by simpa [sigmoidNorm] using div_pos one_pos hd)
    · have : (1 : ℝ) ≤ 1 + Real.exp (-v) := by linarith
      simpa [sigmoidNorm] using (div_le_one hd).mpr this
  · have hmn := batchMin_le vals w hw
    have hmx := le_batchMax vals w hw
    by_cases h : batchMax vals = batchMin vals
    · simp [minmaxNorm, h]
    · have hlt : batchMin vals < batchMax vals :=
        lt_of_le_of_ne (le_trans hmn hmx) (Ne.symm h)
      have hpos : 0 < batchMax vals - batchMin vals := by linarith
      constructor
      · simp only [minmaxNorm, if_neg h]
        exact div_nonneg (by linarith) hpos.le
      · simp only [minmaxNorm, if_neg h]
        exact (div_le_one hpos).mpr (by linarith)
  · intro h
    simp [minmaxNorm, h]

/-- Witness for C7 at raw input 0, batch `[1, 2]`, member 1. -/
theorem c7_normalizer_bounds_witness :
    (1 : ℚ) ∈ ([1, 2] : List ℚ)
      ∧ ((0 ≤ sigmoidNorm Real.exp (0 : ℝ) ∧ sigmoidNorm Real.exp (0 : ℝ) ≤ 1)
        ∧ (0 ≤ minmaxNorm ([1, 2] : List ℚ) 1 ∧ minmaxNorm ([1, 2] : List ℚ) 1 ≤ 1)
        ∧ (batchMax ([1, 2] : List ℚ) = batchMin ([1, 2] : List ℚ)
            → minmaxNorm ([1, 2] : List ℚ) 5 = 0)) :=
  ⟨by simp, c7_normalizer_bounds 0 [1, 2] 1 (by simp) 5⟩

/-- C2: every failing invocation (no input items; query not a string;
query_embedding not an array; items not an array; or, once validation
and the non-empty short-circuit are passed, model weights that do not
parse to exactly 5 numbers) returns a single-element result carrying
the error marker and a human-readable message, instead of raising: the
embedded `execute` is total and each failing path returns exactly
`[Out.err message]`. -/
theorem c2_failure_single_error (env : Env) (raw : RawConfig) (now : ℚ)
    (first : FirstJson) (rest : List InputItem) :
    execute env raw [] now = [Out.err "No input items provided."]
      ∧ (first.query = none → execute env raw (⟨first⟩ :: rest) now
          = [Out.err "Missing or invalid query."])
      ∧ (∀ q, first.query = some q → first.query_embedding = none →
          execute env raw (⟨first⟩ :: rest) now
            = [Out.err "Missing or invalid query_embedding."])
      ∧ (∀ q qe, first.query = some q → first.query_embedding = some qe →
          first.items = none → execute env raw (⟨first⟩ :: rest) now
            = [Out.err "Missing or invalid items array."])
      ∧ (∀ q qe ds, first.query = some q → first.query_embedding = some qe →
          first.items = some ds →
          env.tk (resolveConfig raw).minTokenLength (env.lowerTrim q) ≠ [] →
          ds ≠ [] → raw.useModel = true →
          (raw.modelWeights.filterMap id).length ≠ 5 →
          execute env raw (⟨first⟩ :: rest) now
            = [Out.err "Model weights must contain exactly 5 numbers: sem,bm25,exact,rec,bias"]) := by
  have hrun : execute env raw (⟨first⟩ :: rest) now
      = run env (resolveConfig raw) first now := rfl
  refine ⟨rfl, ?_, ?_, ?_, ?_⟩
  · intro hq
    rw [hrun]
    simp [run, hq]
  · intro q hq he
    rw [hrun]
    simp [run, hq, he]
  · intro q qe hq he hi
    rw [hrun]
    simp [run, hq, he, hi]
  · intro q qe ds hq he hi hqt hds hum hlen
    have hpm : parseModelWeights (resolveConfig raw).modelWeights = none :=
      (parseModelWeights_none_iff raw.modelWeights).mpr hlen
    rw [hrun]
    simp only [run, hq, he, hi]
    rw [if_neg (by simp [hqt, hds])]
    have hum2 : (resolveConfig raw).useModel = true := hum
    rw [if_pos hum2, hpm]

/-- Witness for C2: the no-input case and the invalid-query case each
produce their single-element error result. -/
theorem c2_failure_single_error_witness :
    execute envW rawW [] 0 = [Out.err "No input items provided."]
      ∧ execute envW rawW [⟨⟨none, some [], some []⟩⟩] 0
        = [Out.err "Missing or invalid query."] :=
  ⟨(c2_failure_single_error envW rawW 0 ⟨none, some [], some []⟩ []).1,
    (c2_failure_single_error envW rawW 0 ⟨none, some [], some []⟩ []).2.1 rfl⟩

/-- C5 (amended): the pipeline is a pure function of the input items,
the configuration and the invocation clock reading, so two invocations
with identical input, configuration AND invocation time coincide; and
whenever no candidate document carries a parseable timestamp, the
output is moreover independent of the invocation time.  Two runs at
different wall-clock times can differ when a document has a timestamp
(see the counterexample), because `Date.now()` enters the recency
signal. -/
theorem c5_time_independent_no_timestamps (env : Env) (raw : RawConfig)
    (first : FirstJson) (rest : List InputItem) (now now2 : ℚ)
    (hts : ∀ d ∈ first.items.getD [], d.json.timestamp = none) :
    execute env raw (⟨first⟩ :: rest) now
      = execute env raw (⟨first⟩ :: rest) now2 := by
  have h1 : execute env raw (⟨first⟩ :: rest) now
      = run env (resolveConfig raw) first now := rfl
  have h2 : execute env raw (⟨first⟩ :: rest) now2
      = run env (resolveConfig raw) first now2 := rfl
  rw [h1, h2]
  obtain ⟨oq, oe, oi⟩ := first
  cases oq with
  | none => rfl
  | some q =>
    cases oe with
    | none => rfl
    | some qe =>
      cases oi with
      | none => rfl
      | some ds =>
        have hds : ∀ d ∈ ds, d.json.timestamp = none := by simpa using hts
        simp only [run]
        by_cases hsc : env.tk (resolveConfig raw).minTokenLength (env.lowerTrim q) = []
            ∨ ds = []
        · rw [if_pos hsc, if_pos hsc]
        · rw [if_neg hsc, if_neg hsc]
          by_cases hum : (resolveConfig raw).useModel = true
          · rw [if_pos hum, if_pos hum]
            cases hpm : parseModelWeights (resolveConfig raw).modelWeights with
            | none => rfl
            | some m =>
              exact rank_now_eq env (resolveConfig raw) _ qe ds now now2 (some m) hds
          · rw [if_neg hum, if_neg hum]
            exact rank_now_eq env (resolveConfig raw) _ qe ds now now2 none hds

/-- Witness for C5: with a timestamp-free candidate, runs at times 0
and 86400000 coincide. -/
theorem c5_time_independent_no_timestamps_witness :
    execute envW rawW [⟨firstNoTsW⟩] 0 = execute envW rawW [⟨firstNoTsW⟩] 86400000 :=
  c5_time_independent_no_timestamps envW rawW firstNoTsW [] 0 86400000 (by decide)

/-- Counterexample for C5 as stated: query `aa` (one length-2 token,
surviving the minimum-length filter) and one timestamped candidate
(chunk `aa`, epoch 0) under the default configuration; running at
clock 0 and one day later (86400000 ms) yields different outputs — the
recency signal, and with it `rerank_score`, depends on the wall-clock
reading of `Date.now()`. -/
theorem c5_time_independent_cex :
    execute envW rawW [⟨firstW⟩] 0 ≠ execute envW rawW [⟨firstW⟩] 86400000 := by
  simp +decide [execute, run, rank, scoreBatch, rawSignals, resolveConfig, rawW, envW, tkW,
    firstW, docW, jsOrQ, jsOrNat, jsOrStr, chunks, chunksGo, globalDF, dfAddDoc, dfBump,
    batchAvgLen, bm25Of, bm25TermContrib, dfOr1, exactOverlap, cosSim, sigmoidNorm,
    minmaxNorm, fuse, parseModelWeights, List.insertionSort, List.orderedInsert]

/-- C8 (amended): once an invocation passes validation with a non-empty
query-token sequence and a non-empty candidate list, the learned-model
gate behaves as claimed: weights not parsing to exactly 5 numbers fail
the invocation with the error result, and weights parsing to exactly
the five numbers `a,b,c,d,e` make the pipeline proceed with those five
coefficients as `(sem, bm25, exact, rec, bias)`.  Without the
non-empty proviso the claim fails: the empty short-circuit of line 135
runs BEFORE the weight gate of lines 143-148 and returns an empty
result even when the weights are invalid (see the counterexample). -/
theorem c8_model_weights_gate (env : Env) (raw : RawConfig) (first : FirstJson)
    (rest : List InputItem) (now : ℚ) (q : String) (qe : List ℚ)
    (ds : List Item) (hq : first.query = some q)
    (he : first.query_embedding = some qe) (hi : first.items = some ds)
    (hqt : env.tk (resolveConfig raw).minTokenLength (env.lowerTrim q) ≠ [])
    (hds : ds ≠ []) (hum : raw.useModel = true) :
    ((raw.modelWeights.filterMap id).length ≠ 5 →
        execute env raw (⟨first⟩ :: rest) now
          = [Out.err "Model weights must contain exactly 5 numbers: sem,bm25,exact,rec,bias"])
      ∧ (∀ a b2 c d e : ℚ, raw.modelWeights.filterMap id = [a, b2, c, d, e] →
          execute env raw (⟨first⟩ :: rest) now
            = rank env (resolveConfig raw)
                (env.tk (resolveConfig raw).minTokenLength (env.lowerTrim q))
                qe ds now (some ⟨a, b2, c, d, e⟩)) := by
  have hrun : execute env raw (⟨first⟩ :: rest) now
      = run env (resolveConfig raw) first now := rfl
  have hum2 : (resolveConfig raw).useModel = true := hum
  constructor
  · intro hlen
    have hpm : parseModelWeights (resolveConfig raw).modelWeights = none :=
      (parseModelWeights_none_iff raw.modelWeights).mpr hlen
    rw [hrun]
    simp only [run, hq, he, hi]
    rw [if_neg (by simp [hqt, hds]), if_pos hum2, hpm]
  · intro a b2 c d e hfm
    have hfm2 : List.filterMap id (resolveConfig raw).modelWeights
        = [a, b2, c, d, e] := hfm
    have hpm : parseModelWeights (resolveConfig raw).modelWeights
        = some ⟨a, b2, c, d, e⟩ := by
      unfold parseModelWeights
      rw [hfm2]
    rw [hrun]
    simp only [run, hq, he, hi]
    rw [if_neg (by simp [hqt, hds]), if_pos hum2, hpm]

/-- Witness for C8: learned model enabled, weights parsing to 2 numbers,
non-empty query tokens and one candidate: the invocation fails with the
model-weights error result. -/
theorem c8_model_weights_gate_witness :
    (rawM.modelWeights.filterMap id).length ≠ 5
      ∧ execute envW rawM [⟨firstOneW⟩] 0
        = [Out.err "Model weights must contain exactly 5 numbers: sem,bm25,exact,rec,bias"] :=
  ⟨by decide,
    (c8_model_weights_gate envW rawM firstOneW [] 0 "aa" [] [docW] rfl rfl rfl
      (by decide) (by decide) rfl).1 (by decide)⟩

/-- Counterexample for C8 as stated: learned model enabled and weights
parsing to only 2 numbers, but with an empty candidate array — the
invocation returns the EMPTY result, not the error result: the
short-circuit of line 135 precedes the weight gate. -/
theorem c8_model_weights_gate_cex :
    rawM.useModel = true
      ∧ (rawM.modelWeights.filterMap id).length = 2
      ∧ execute envW rawM [⟨firstEmptyW⟩] 0 = []
      ∧ execute envW rawM [⟨firstEmptyW⟩] 0
        ≠ [Out.err "Model weights must contain exactly 5 numbers: sem,bm25,exact,rec,bias"] := by
  refine ⟨rfl, by decide, by decide, by decide⟩

/-- C9: each numeric parameter read through the `Number(...) || default`
pattern treats an explicitly configured 0 as falsy, so configuring 0
behaves exactly like configuring the documented default — for `topN`,
`batchSize`, `recencyHalfLife`, `minTokenLength` and the four fusion
weights alike (a weight of 0 cannot actually be selected). -/
theorem c9_zero_behaves_as_default (env : Env) (raw : RawConfig)
    (inputs : List InputItem) (now : ℚ) :
    execute env {raw with topN := some 0} inputs now
        = execute env {raw with topN := some 5} inputs now
      ∧ execute env {raw with batchSize := some 0} inputs now
        = execute env {raw with batchSize := some 200} inputs now
      ∧ execute env {raw with recencyHalfLife := some 0} inputs now
        = execute env {raw with recencyHalfLife := some 60} inputs now
      ∧ execute env {raw with minTokenLength := some 0} inputs now
        = execute env {raw with minTokenLength := some 2} inputs now
      ∧ execute env {raw with semWeight := some 0} inputs now
        = execute env {raw with semWeight := some (7/10)} inputs now
      ∧ execute env {raw with lexWeight := some 0} inputs now
        = execute env {raw with lexWeight := some (1/4)} inputs now
      ∧ execute env {raw with exactWeight := some 0} inputs now
        = execute env {raw with exactWeight := some (1/10)} inputs now
      ∧ execute env {raw with timeWeight := some 0} inputs now
        = execute env {raw with timeWeight := some (1/20)} inputs now := by
  have hcfg : ∀ raw1 raw2 : RawConfig, resolveConfig raw1 = resolveConfig raw2 →
      execute env raw1 inputs now = execute env raw2 inputs now := by
    intro raw1 raw2 h
    cases inputs with
    | nil => rfl
    | cons f r =>
      show run env (resolveConfig raw1) f.json now
        = run env (resolveConfig raw2) f.json now
      rw [h]
  refine ⟨hcfg _ _ ?_, hcfg _ _ ?_, hcfg _ _ ?_, hcfg _ _ ?_, hcfg _ _ ?_,
    hcfg _ _ ?_, hcfg _ _ ?_, hcfg _ _ ?_⟩ <;>
    simp [resolveConfig, jsOrNat, jsOrQ, jsOrStr]

/-- C10: the query, the query embedding and the candidate list are read
exclusively from the json of the first input item; beyond the initial
non-emptiness check, the items after the first have no effect on the
output. -/
theorem c10_only_first_item_read (env : Env) (raw : RawConfig)
    (j : FirstJson) (rest1 rest2 : List InputItem) (now : ℚ) :
    execute env raw (⟨j⟩ :: rest1) now = execute env raw (⟨j⟩ :: rest2) now := rfl

end Reranker
